import Mathlib

/-!
Shallow embedding of `scripts/gui_selector.py`, a curses-based interactive
component selector.  Python lists become `List`, strings become `String`
(or `List Char` where exact character counts matter), integers become
`Nat` or `Int` following the guards of the code, the blocking key-input
loop becomes an explicit list of input events, and the possibility of a
raised exception becomes `Except`.
-/

/-- A component that can be selected for installation
(the `SelectableComponent` dataclass of the source). -/
structure SelectableComponent where
  name : String
  slug : String
  description : String
  selected : Bool := false
  category : String := "General"
  deriving DecidableEq

/-- The static component definition table `COMPONENT_DEFINITIONS`
of the source, entry by entry. -/
def COMPONENT_DEFINITIONS : List SelectableComponent :=
  [ { name := "Guppy Screen", slug := "guppyscreen",
      description := "Alternative touchscreen UI for the printer display",
      selected := true, category := "Display & Interface" },
    { name := "Mainsail", slug := "mainsail",
      description := "Modern web interface for Klipper",
      selected := true, category := "Display & Interface" },
    { name := "uStreamer", slug := "ustreamer",
      description := "Lightweight MJPEG streaming server for camera",
      selected := true, category := "Camera & Streaming" },
    { name := "Timelapse (MJPEG)", slug := "timelapse",
      description := "Print timelapse recording with MJPEG encoder",
      selected := true, category := "Camera & Streaming" },
    { name := "Timelapse (H264)", slug := "timelapseh264",
      description := "Print timelapse recording with H264 encoder",
      selected := false, category := "Camera & Streaming" },
    { name := "All Macros & Configs", slug := "macros",
      description := "Complete set of macros, start_print, and overrides",
      selected := true, category := "Macros & Configuration" },
    { name := "Macros Only", slug := "macros_only",
      description := "Install only macros.cfg",
      selected := false, category := "Macros & Configuration" },
    { name := "Start Print Only", slug := "start_print",
      description := "Install only start_print.cfg",
      selected := false, category := "Macros & Configuration" },
    { name := "Overrides Only", slug := "overrides",
      description := "Install only overrides.cfg",
      selected := false, category := "Macros & Configuration" },
    { name := "KAMP", slug := "kamp",
      description := "Klipper Adaptive Meshing & Purging",
      selected := false, category := "Macros & Configuration" },
    { name := "Resonance Tester", slug := "resonance",
      description := "Custom resonance testing for input shaping",
      selected := true, category := "Calibration & Tuning" },
    { name := "ShakeTune", slug := "shaketune",
      description := "Advanced input shaper analysis and tuning",
      selected := true, category := "Calibration & Tuning" },
    { name := "Cleanup Service", slug := "cleanup",
      description := "Automatic cleanup of old printer backups",
      selected := true, category := "System Services" } ]

/-- The mutable state of a `ComponentSelector` instance: its working list
of components, the cursor `current_index`, the `scroll_offset` into the
display-item sequence, and the `cancelled` flag. -/
structure SelectorState where
  components : List SelectableComponent
  current_index : Nat
  scroll_offset : Nat
  cancelled : Bool
  deriving DecidableEq

/-- `ComponentSelector.__init__`: `current_index = 0`, `scroll_offset = 0`,
`cancelled = False`, with the given component list. -/
def initState (components : List SelectableComponent) : SelectorState :=
  { components := components, current_index := 0, scroll_offset := 0,
    cancelled := false }

/-- `ComponentSelector.get_visible_rows`: reserve 4 header and 4 footer
rows out of the terminal height `max_y` and clamp to at least one row
(`max(1, max_y - 8)`). -/
def get_visible_rows (max_y : Int) : Int :=
  max 1 (max_y - 8)

/-- Helper for `toggle_current`: flip the `selected` flag of the list
entry at the given index (the assignment
`components[current_index].selected = not components[current_index].selected`). -/
def toggleAt : List SelectableComponent → Nat → List SelectableComponent
  | [], _ => []
  | c :: rest, 0 => { c with selected := !c.selected } :: rest
  | c :: rest, i + 1 => c :: toggleAt rest i

/-- `ComponentSelector.toggle_current`. -/
def toggle_current (s : SelectorState) : SelectorState :=
  { s with components := toggleAt s.components s.current_index }

/-- `ComponentSelector.select_all`: set `selected = True` on every
component. -/
def select_all (s : SelectorState) : SelectorState :=
  { s with components := s.components.map fun c => { c with selected := true } }

/-- `ComponentSelector.deselect_all`: set `selected = False` on every
component. -/
def deselect_all (s : SelectorState) : SelectorState :=
  { s with components := s.components.map fun c => { c with selected := false } }

/-- `ComponentSelector.move_up`: decrement `current_index` unless it is
already 0. -/
def move_up (s : SelectorState) : SelectorState :=
  if s.current_index > 0 then
    { s with current_index := s.current_index - 1 }
  else s

/-- `ComponentSelector.move_down`: increment `current_index` unless it is
already `len(components) - 1`. -/
def move_down (s : SelectorState) : SelectorState :=
  if s.current_index < s.components.length - 1 then
    { s with current_index := s.current_index + 1 }
  else s

/-- One display row of `draw_components`: either a category header
`("category", label, i)` or a component row `("component", component, i)`,
where `i` is the index of the component in the catalog. -/
inductive DisplayItem where
  | category (label : String) (idx : Nat)
  | componentRow (c : SelectableComponent) (idx : Nat)
  deriving DecidableEq

/-- The `display_items` accumulation loop of `draw_components`: the first
argument is the running `current_category` (initially `none`), the second
the index of the next component. A header is emitted whenever the
category of the component differs from `current_category`. -/
def displayItemsAux (cur : Option String) (i : Nat) :
    List SelectableComponent → List DisplayItem
  | [] => []
  | c :: rest =>
    if some c.category ≠ cur then
      DisplayItem.category c.category i :: DisplayItem.componentRow c i ::
        displayItemsAux (some c.category) (i + 1) rest
    else
      DisplayItem.componentRow c i :: displayItemsAux cur (i + 1) rest

/-- The full `display_items` sequence built by `draw_components` from the
component list (`current_category` starts as `None`). -/
def buildDisplayItems (components : List SelectableComponent) : List DisplayItem :=
  displayItemsAux none 0 components

/-- The `current_display_idx` search of `draw_components`: the position of
the first component row whose catalog index equals `current_index`,
defaulting to 0 when there is none. -/
def currentDisplayIdx (items : List DisplayItem) (current_index : Nat) : Nat :=
  match items.findIdx? (fun it =>
      match it with
      | DisplayItem.componentRow _ i => i == current_index
      | DisplayItem.category _ _ => false) with
  | some idx => idx
  | none => 0

/-- The scroll-offset adjustment of `draw_components`: pull the offset up
to `current_display_idx` when the cursor is above the viewport, push it to
`current_display_idx - visible_rows + 1` when the cursor is at or past the
end of the viewport, and leave it alone otherwise. -/
def adjustScroll (scroll_offset visible_rows current_display_idx : Nat) : Nat :=
  if current_display_idx < scroll_offset then
    current_display_idx
  else if current_display_idx ≥ scroll_offset + visible_rows then
    current_display_idx - visible_rows + 1
  else
    scroll_offset

/-- The three-character ellipsis appended by the description truncation
of `draw_components`. -/
def ellipsis : List Char := ['.', '.', '.']

/-- The `name_part` built for a component row of `draw_components`:
two leading spaces, the checkbox, one space, the component name.
Text is carried as `List Char` so that character counts are exact. -/
def name_part (checkbox name : List Char) : List Char :=
  [' ', ' '] ++ checkbox ++ [' '] ++ name

/-- The description truncation of `draw_components`: when the description
is longer than `available_width` characters, keep its first
`available_width - 3` characters and append the ellipsis. -/
def truncateDesc (available_width : Int) (desc : List Char) : List Char :=
  if (desc.length : Int) > available_width then
    desc.take (available_width - 3).toNat ++ ellipsis
  else
    desc

/-- The line layout of one component row of `draw_components`: the
description only appears when `available_width = max_x - len(name_part) - 5`
exceeds 10, and the whole line is clipped to `max_x - 1` characters. -/
def renderLine (max_x : Int) (checkbox name desc : List Char) : List Char :=
  let np := name_part checkbox name
  let available_width : Int := max_x - (np.length : Int) - 5
  let line :=
    if available_width > 10 then
      np ++ [' ', '-', ' '] ++ truncateDesc available_width desc
    else
      np
  line.take (max_x - 1).toNat

/-- The curses key code `curses.KEY_UP`. -/
def KEY_UP : Nat := 259

/-- The curses key code `curses.KEY_DOWN`. -/
def KEY_DOWN : Nat := 258

/-- The curses key code `curses.KEY_ENTER`. -/
def KEY_ENTER : Nat := 343

/-- The curses key code `curses.KEY_RESIZE`. -/
def KEY_RESIZE : Nat := 410

/-- One input event of the blocking loop of `ComponentSelector.run`:
either a key code returned by `getch`, or a `KeyboardInterrupt` raised
during the `getch` call. -/
inductive Event where
  | key (code : Nat)
  | interrupt
  deriving DecidableEq

/-- The confirmation result built by `ComponentSelector.run` on enter:
`[c.slug for c in self.components if c.selected]`. -/
def selectedSlugs (s : SelectorState) : List String :=
  (s.components.filter fun c => c.selected).map fun c => c.slug

/-- One iteration of the dispatch of `ComponentSelector.run`: the next
state, and `some result` when the loop returns (`some (some slugs)` on
confirm, `some none` on cancel or interrupt), `none` when it continues. -/
def handleEvent (s : SelectorState) :
    Event → SelectorState × Option (Option (List String))
  | Event.interrupt => ({ s with cancelled := true }, some none)
  | Event.key key =>
    if key = KEY_UP ∨ key = 107 then (move_up s, none)
    else if key = KEY_DOWN ∨ key = 106 then (move_down s, none)
    else if key = 32 then (toggle_current s, none)
    else if key = 97 ∨ key = 65 then (select_all s, none)
    else if key = 110 ∨ key = 78 then (deselect_all s, none)
    else if key = 10 ∨ key = KEY_ENTER ∨ key = 10 ∨ key = 13 then
      (s, some (some (selectedSlugs s)))
    else if key = 113 ∨ key = 81 ∨ key = 27 then
      ({ s with cancelled := true }, some none)
    else if key = KEY_RESIZE then (s, none)
    else (s, none)

/-- The state reached after one event, discarding the loop result. -/
def stepState (s : SelectorState) (e : Event) : SelectorState :=
  (handleEvent s e).1

/-- The state reached after a list of events, discarding loop results. -/
def applyEvents (s : SelectorState) (es : List Event) : SelectorState :=
  es.foldl stepState s

/-- `ComponentSelector.run` over a finite list of pending input events:
`some r` when the loop returns with result `r` before exhausting the
events, `none` when every event leaves the loop running. -/
def runEvents : SelectorState → List Event → Option (Option (List String))
  | _, [] => none
  | s, e :: rest =>
    match handleEvent s e with
    | (_, some r) => some r
    | (s', none) => runEvents s' rest

/-- An event terminates the loop exactly when it confirms: enter in any
of its key-code spellings. -/
def IsConfirmEvent : Event → Prop
  | Event.key code => code = 10 ∨ code = KEY_ENTER ∨ code = 13
  | Event.interrupt => False

/-- An event cancels the session: the q, Q or escape key, or a keyboard
interrupt during the input wait. -/
def IsCancelEvent : Event → Prop
  | Event.key code => code = 113 ∨ code = 81 ∨ code = 27
  | Event.interrupt => True

/-- The events on which `ComponentSelector.run` returns. -/
def Terminates (e : Event) : Prop :=
  IsConfirmEvent e ∨ IsCancelEvent e

/-- The per-field copy made by `run_selector` for each entry of
`COMPONENT_DEFINITIONS` before handing the list to `ComponentSelector`. -/
def copyComponent (c : SelectableComponent) : SelectableComponent :=
  { name := c.name, slug := c.slug, description := c.description,
    selected := c.selected, category := c.category }

/-- The store visible to one interactive session: the static definition
table of the provider, plus the selector state built over the working
copy. -/
structure World where
  definitions : List SelectableComponent
  state : SelectorState
  deriving DecidableEq

/-- `run_selector`: copy every entry of the definition table field by
field and construct the selector over the copies. -/
def run_selector_init (defs : List SelectableComponent) : World :=
  { definitions := defs,
    state := initState (defs.map copyComponent) }

/-- One loop iteration at the level of the whole store: the selector
state evolves by `handleEvent`; the definition table is carried along. -/
def worldStep (w : World) (e : Event) :
    World × Option (Option (List String)) :=
  let (s', r) := handleEvent w.state e
  ({ w with state := s' }, r)

/-- The whole store after running the session on a list of events
(stopping early when the loop returns). -/
def runWorld : World → List Event → World
  | w, [] => w
  | w, e :: rest =>
    match worldStep w e with
    | (w', some _) => w'
    | (w', none) => runWorld w' rest

/-- `select_components`: the session either returns a result or raises;
a raised exception is caught and mapped to `None`. -/
def select_components (session : Except String (Option (List String))) :
    Option (List String) :=
  match session with
  | Except.ok r => r
  | Except.error _ => none

/-- Modelled from the spec: the number of category headers the spec asks
for over a list of adjacent category labels — one for the first item,
plus one for every adjacent pair of differing labels. -/
def adjacentChanges : List String → Nat
  | a :: b :: rest => (if b ≠ a then 1 else 0) + adjacentChanges (b :: rest)
  | _ => 0

/-- Modelled from the spec: total header count for a catalog with the
given category labels (first item always emits one). -/
def specHeaderCount (cats : List String) : Nat :=
  if cats = [] then 0 else 1 + adjacentChanges cats

/-- Whether a display item is a category header. -/
def isHeader : DisplayItem → Bool
  | DisplayItem.category _ _ => true
  | DisplayItem.componentRow _ _ => false

/-- Whether a display item is a category header with the given label. -/
def isHeaderLabeled (lbl : String) : DisplayItem → Bool
  | DisplayItem.category l _ => l == lbl
  | DisplayItem.componentRow _ _ => false

/-- The component rows of a display-item sequence, with their catalog
indices. -/
def rowEntries (items : List DisplayItem) : List (Nat × SelectableComponent) :=
  items.filterMap fun it =>
    match it with
    | DisplayItem.componentRow c i => some (i, c)
    | DisplayItem.category _ _ => none

/-- A three-component catalog whose first and third entries share a
category that the middle entry interrupts. -/
def catalogXYX : List SelectableComponent :=
  [ { name := "A", slug := "a", description := "", selected := true,
      category := "X" },
    { name := "B", slug := "b", description := "", selected := false,
      category := "Y" },
    { name := "C", slug := "c", description := "", selected := true,
      category := "X" } ]

/-- The selector state at the start of a session over `catalogXYX`. -/
def testState : SelectorState := initState catalogXYX

/-- A navigation operation of the selector: MoveUp or MoveDown. -/
inductive Move where
  | up
  | down
  deriving DecidableEq

/-- Apply one navigation operation. -/
def applyMove (s : SelectorState) : Move → SelectorState
  | Move.up => move_up s
  | Move.down => move_down s

/-- Apply a sequence of navigation operations, left to right. -/
def applyMoves (s : SelectorState) (ms : List Move) : SelectorState :=
  ms.foldl applyMove s

theorem applyMove_components (s : SelectorState) (m : Move) :
    (applyMove s m).components = s.components := by
  cases m <;> simp only [applyMove, move_up, move_down] <;> split <;> rfl

theorem applyMove_index_le (s : SelectorState) (m : Move)
    (h : s.current_index ≤ s.components.length - 1) :
    (applyMove s m).current_index ≤ s.components.length - 1 := by
  cases m with
  | up =>
    show (move_up s).current_index ≤ s.components.length - 1
    unfold move_up
    split
    · show s.current_index - 1 ≤ s.components.length - 1
      omega
    · exact h
  | down =>
    show (move_down s).current_index ≤ s.components.length - 1
    unfold move_down
    split
    · next hlt =>
      show s.current_index + 1 ≤ s.components.length - 1
      omega
    · exact h

theorem applyMoves_components (s : SelectorState) (ms : List Move) :
    (applyMoves s ms).components = s.components := by
  induction ms generalizing s with
  | nil => rfl
  | cons m rest ih =>
    simp only [applyMoves, List.foldl_cons] at *
    rw [ih, applyMove_components]

theorem applyMoves_index_le (s : SelectorState) (ms : List Move)
    (h : s.current_index ≤ s.components.length - 1) :
    (applyMoves s ms).current_index ≤ (applyMoves s ms).components.length - 1 := by
  induction ms generalizing s with
  | nil => exact h
  | cons m rest ih =>
    simp only [applyMoves, List.foldl_cons] at *
    have h1 := applyMove_index_le s m h
    rw [← applyMove_components s m] at h1
    exact ih (applyMove s m) h1

/-- C3: for every catalog of size at least 1 and every sequence of
MoveUp/MoveDown operations starting from `current_index = 0`, the cursor
stays within `[0, len(catalog) - 1]` with no wraparound, and MoveUp at
index 0 and MoveDown at the last index leave the state unchanged. -/
theorem move_sequence_stays_in_bounds
    (comps : List SelectableComponent) (ms : List Move)
    (h : 1 ≤ comps.length) :
    (applyMoves (initState comps) ms).current_index < comps.length ∧
    (applyMoves (initState comps) ms).current_index ≤ comps.length - 1 ∧
    (∀ s : SelectorState, s.current_index = 0 → move_up s = s) ∧
    (∀ s : SelectorState, s.current_index = s.components.length - 1 →
      move_down s = s) := by
  have hle := applyMoves_index_le (initState comps) ms (by simp [initState])
  rw [applyMoves_components] at hle
  have hc : (initState comps).components = comps := rfl
  rw [hc] at hle
  refine ⟨by omega, by omega, ?_, ?_⟩
  · intro s h0
    simp [move_up, h0]
  · intro s hl
    rw [move_down, if_neg (by omega)]

/-- Witness for C3 at the concrete three-component catalog: moving down
three times from the start keeps the cursor within bounds. -/
theorem move_sequence_stays_in_bounds_witness :
    (applyMoves (initState catalogXYX) [Move.down, Move.down, Move.down]).current_index
      < catalogXYX.length :=
  (move_sequence_stays_in_bounds catalogXYX [Move.down, Move.down, Move.down]
    (by decide)).1

theorem toggleAt_toggleAt (l : List SelectableComponent) (i : Nat) :
    toggleAt (toggleAt l i) i = l := by
  induction l generalizing i with
  | nil => cases i <;> rfl
  | cons c rest ih =>
    cases i with
    | zero => simp [toggleAt]
    | succ n => simp [toggleAt, ih]

theorem toggleAt_get?_ne (l : List SelectableComponent) (i j : Nat)
    (h : j ≠ i) : (toggleAt l i).get? j = l.get? j := by
  induction l generalizing i j with
  | nil => rfl
  | cons c rest ih =>
    cases i with
    | zero =>
      cases j with
      | zero => exact absurd rfl h
      | succ k => rfl
    | succ n =>
      cases j with
      | zero => rfl
      | succ k =>
        simp only [toggleAt, List.get?_cons_succ]
        exact ih n k (by omega)

theorem toggleAt_get?_eq (l : List SelectableComponent) (i : Nat)
    (c : SelectableComponent) (h : l.get? i = some c) :
    (toggleAt l i).get? i = some { c with selected := !c.selected } := by
  induction l generalizing i with
  | nil => simp at h
  | cons a rest ih =>
    cases i with
    | zero =>
      simp only [List.get?_cons_zero, Option.some.injEq] at h
      subst h
      rfl
    | succ n =>
      simp only [List.get?_cons_succ] at h
      simpa only [toggleAt, List.get?_cons_succ] using ih n h

/-- C5: toggling twice at the same cursor restores the whole state; a
single toggle changes only the component at `current_index` (its
`selected` flag flipped, all other fields and entries unchanged) and
leaves cursor, scroll offset and cancelled flag alone. -/
theorem toggle_current_double_application_identity (s : SelectorState) :
    toggle_current (toggle_current s) = s ∧
    (toggle_current s).current_index = s.current_index ∧
    (toggle_current s).scroll_offset = s.scroll_offset ∧
    (toggle_current s).cancelled = s.cancelled ∧
    (∀ j, j ≠ s.current_index →
      (toggle_current s).components.get? j = s.components.get? j) ∧
    (∀ c, s.components.get? s.current_index = some c →
      (toggle_current s).components.get? s.current_index =
        some { c with selected := !c.selected }) := by
  refine ⟨?_, rfl, rfl, rfl, ?_, ?_⟩
  · cases s
    simp [toggle_current, toggleAt_toggleAt]
  · intro j hj
    exact toggleAt_get?_ne s.components s.current_index j hj
  · intro c hc
    exact toggleAt_get?_eq s.components s.current_index c hc

/-- Witness for C5 at the concrete catalog: double toggle restores the
initial state, and the toggle leaves the entry at index 1 alone. -/
theorem toggle_current_double_application_identity_witness :
    toggle_current (toggle_current testState) = testState ∧
    (toggle_current testState).components.get? 1 = testState.components.get? 1 :=
  ⟨(toggle_current_double_application_identity testState).1,
   (toggle_current_double_application_identity testState).2.2.2.2.1 1 (by decide)⟩

/-- C8: the viewport height is `max(1, H - 8)` for terminal height `H`
(8 reserved header and footer rows), hence at least 1 for every `H`,
and exactly 1 whenever `H - 8` is zero or negative. -/
theorem visible_rows_clamped_to_minimum_one (H : Int) :
    get_visible_rows H = max 1 (H - 8) ∧
    1 ≤ get_visible_rows H ∧
    (H - 8 ≤ 0 → get_visible_rows H = 1) := by
  refine ⟨rfl, le_max_left _ _, ?_⟩
  intro h
  unfold get_visible_rows
  omega

/-- Witness for C8 at a 5-row terminal: the viewport is clamped to one
row. -/
theorem visible_rows_clamped_to_minimum_one_witness :
    get_visible_rows 5 = 1 :=
  (visible_rows_clamped_to_minimum_one 5).2.2 (by decide)

/-- C10: `select_components` is a total function into
`Option (List String)`: a normal session result passes through, any
raised error is mapped to `none`, and an error result is therefore
indistinguishable from a cancellation by return value alone. -/
theorem select_components_never_raises :
    (∀ r, select_components (Except.ok r) = r) ∧
    (∀ msg, select_components (Except.error msg) = none) ∧
    (∀ msg, select_components (Except.error msg) =
      select_components (Except.ok none)) :=
  ⟨fun _ => rfl, fun _ => rfl, fun _ => rfl⟩

theorem select_all_slugs (l : List SelectableComponent) :
    (((l.map fun c => { c with selected := true }).filter
        fun c => c.selected).map fun c => c.slug) =
      l.map fun c => c.slug := by
  induction l with
  | nil => rfl
  | cons c rest ih => simp [ih]

theorem deselect_all_slugs (l : List SelectableComponent) :
    (((l.map fun c => { c with selected := false }).filter
        fun c => c.selected).map fun c => c.slug) = [] := by
  induction l with
  | nil => rfl
  | cons c rest ih => simp [ih]

/-- C1: pressing enter returns the slugs of exactly the selected
components in catalog order (a filter of the catalog, hence a sublist of
the full slug list); select-all then enter yields every slug in catalog
order, and deselect-all then enter yields the empty list. -/
theorem confirm_returns_catalog_ordered_slugs (s : SelectorState) :
    runEvents s [Event.key 10] =
      some (some ((s.components.filter fun c => c.selected).map
        fun c => c.slug)) ∧
    runEvents s [Event.key 97, Event.key 10] =
      some (some (s.components.map fun c => c.slug)) ∧
    runEvents s [Event.key 110, Event.key 10] = some (some []) ∧
    List.Sublist
      ((s.components.filter fun c => c.selected).map fun c => c.slug)
      (s.components.map fun c => c.slug) := by
  refine ⟨rfl, ?_, ?_, (s.components.filter_sublist).map _⟩
  · have h1 : runEvents s [Event.key 97, Event.key 10] =
        some (some (selectedSlugs (select_all s))) := rfl
    rw [h1]
    simp only [selectedSlugs, select_all, select_all_slugs]
  · have h1 : runEvents s [Event.key 110, Event.key 10] =
        some (some (selectedSlugs (deselect_all s))) := rfl
    rw [h1]
    simp only [selectedSlugs, deselect_all, deselect_all_slugs]

theorem handleEvent_confirm (s : SelectorState) (e : Event)
    (h : IsConfirmEvent e) :
    handleEvent s e = (s, some (some (selectedSlugs s))) := by
  cases e with
  | interrupt => exact h.elim
  | key code => rcases h with h | h | h <;> subst h <;> rfl

theorem handleEvent_cancel (s : SelectorState) (e : Event)
    (h : IsCancelEvent e) :
    handleEvent s e = ({ s with cancelled := true }, some none) := by
  cases e with
  | interrupt => rfl
  | key code => rcases h with h | h | h <;> subst h <;> rfl

theorem handleEvent_snd_none (s : SelectorState) (e : Event)
    (h : ¬ Terminates e) : (handleEvent s e).2 = none := by
  cases e with
  | interrupt => exact absurd (Or.inr trivial) h
  | key code =>
    have hc : ¬ (code = 10 ∨ code = KEY_ENTER ∨ code = 13) :=
      fun hh => h (Or.inl hh)
    have hq : ¬ (code = 113 ∨ code = 81 ∨ code = 27) :=
      fun hh => h (Or.inr hh)
    simp only [handleEvent]
    split_ifs <;> first | rfl | tauto

theorem runEvents_append_nonterminal (s : SelectorState) (es : List Event)
    (h : ∀ e ∈ es, ¬ Terminates e) (tail : List Event) :
    runEvents s (es ++ tail) = runEvents (applyEvents s es) tail := by
  induction es generalizing s with
  | nil => rfl
  | cons e rest ih =>
    have hnone := handleEvent_snd_none s e (h e (by simp))
    simp only [List.cons_append, runEvents]
    rcases hE : handleEvent s e with ⟨s', r⟩
    rw [hE] at hnone
    simp only at hnone
    subst hnone
    have hstep : stepState s e = s' := by rw [stepState, hE]
    have happ : applyEvents s (e :: rest) = applyEvents s' rest := by
      simp only [applyEvents, List.foldl_cons, hstep]
    rw [happ]
    exact ih s' (fun x hx => h x (by simp [hx]))

/-- C2: after any run of non-terminating events, an input that cancels
(q, Q, escape, or a keyboard interrupt during the input wait) ends the
session with the marker `none`, while an input that confirms ends it
with `some` list — the two outcomes are never equal, so a cancelled
session is distinguishable from a confirmed empty selection. -/
theorem cancel_and_confirm_results_distinguishable (s : SelectorState)
    (es : List Event) (h : ∀ e ∈ es, ¬ Terminates e) :
    (∀ e, IsCancelEvent e → runEvents s (es ++ [e]) = some none) ∧
    (∀ e, IsConfirmEvent e → runEvents s (es ++ [e]) =
      some (some (selectedSlugs (applyEvents s es)))) ∧
    (∀ l : List String,
      (some (some l) : Option (Option (List String))) ≠ some none) := by
  refine ⟨?_, ?_, by simp⟩
  · intro e he
    rw [runEvents_append_nonterminal s es h [e]]
    simp only [runEvents, handleEvent_cancel _ e he]
  · intro e he
    rw [runEvents_append_nonterminal s es h [e]]
    simp only [runEvents, handleEvent_confirm _ e he]

/-- Witness for C2 at the concrete catalog: after one navigation key,
escape yields the cancellation marker and enter yields the confirmed
slug list. -/
theorem cancel_and_confirm_results_distinguishable_witness :
    runEvents testState ([Event.key 107] ++ [Event.key 27]) = some none ∧
    runEvents testState ([Event.key 107] ++ [Event.key 10]) =
      some (some ["a", "c"]) := by
  have hns : ∀ e ∈ [Event.key 107], ¬ Terminates e := by
    intro e he
    simp only [List.mem_singleton] at he
    subst he
    intro ht
    simp only [Terminates, IsConfirmEvent, IsCancelEvent, KEY_ENTER] at ht
    rcases ht with (h1 | h1 | h1) | (h1 | h1 | h1) <;>
      exact absurd h1 (by decide)
  constructor
  · exact (cancel_and_confirm_results_distinguishable testState
      [Event.key 107] hns).1 (Event.key 27) (Or.inr (Or.inr rfl))
  · have h2 := (cancel_and_confirm_results_distinguishable testState
      [Event.key 107] hns).2.1 (Event.key 10) (Or.inl rfl)
    rw [h2]
    rfl

theorem runWorld_definitions (w : World) (es : List Event) :
    (runWorld w es).definitions = w.definitions := by
  induction es generalizing w with
  | nil => rfl
  | cons e rest ih =>
    simp only [runWorld, worldStep]
    rcases hE : handleEvent w.state e with ⟨s', r⟩
    cases r <;> simp [ih]

/-- C9: the session works on a per-field copy of the static definition
table: running any sequence of input events leaves the definition table
of the provider unchanged, the working copy starts as an exact copy of
the table, and the copy preserves every field, so a later session starts
from identical defaults. -/
theorem provider_table_preserved_across_session
    (defs : List SelectableComponent) (es : List Event) :
    (runWorld (run_selector_init defs) es).definitions = defs ∧
    (run_selector_init defs).state = initState (defs.map copyComponent) ∧
    (∀ c, copyComponent c = c) ∧
    (run_selector_init defs).state.components = defs := by
  refine ⟨runWorld_definitions _ es, rfl, fun c => rfl, ?_⟩
  show defs.map copyComponent = defs
  induction defs with
  | nil => rfl
  | cons c rest ih =>
    rw [List.map_cons, ih]
    rfl

/-- C4: after the per-frame scroll adjustment, the display index of the
current row lies within `[scroll_offset, scroll_offset + visible_rows)`,
and the adjustment is minimal-scroll: it jumps to the cursor when the
cursor is above the viewport, to `cursor - visible_rows + 1` when the
cursor is at or past its end, and changes nothing otherwise. -/
theorem scroll_adjustment_keeps_cursor_in_viewport
    (components : List SelectableComponent)
    (ci so vr cdi : Nat) (hvr : 1 ≤ vr)
    (hcdi : cdi = currentDisplayIdx (buildDisplayItems components) ci) :
    adjustScroll so vr cdi ≤ cdi ∧
    cdi < adjustScroll so vr cdi + vr ∧
    (cdi < so → adjustScroll so vr cdi = cdi) ∧
    (so + vr ≤ cdi → adjustScroll so vr cdi = cdi - vr + 1) ∧
    (so ≤ cdi → cdi < so + vr → adjustScroll so vr cdi = so) := by
  unfold adjustScroll
  split_ifs with h1 h2 <;> refine ⟨?_, ?_, ?_, ?_, ?_⟩ <;> omega

/-- Witness for C4: over the concrete catalog with the cursor on the
last component (display index 5), a one-row viewport at offset 0 scrolls
so that the cursor row is the single visible row. -/
theorem scroll_adjustment_keeps_cursor_in_viewport_witness :
    adjustScroll 0 1 (currentDisplayIdx (buildDisplayItems catalogXYX) 2) ≤
      currentDisplayIdx (buildDisplayItems catalogXYX) 2 ∧
    currentDisplayIdx (buildDisplayItems catalogXYX) 2 <
      adjustScroll 0 1 (currentDisplayIdx (buildDisplayItems catalogXYX) 2) + 1 :=
  ⟨(scroll_adjustment_keeps_cursor_in_viewport catalogXYX 2 0 1
      (currentDisplayIdx (buildDisplayItems catalogXYX) 2) (by decide) rfl).1,
   (scroll_adjustment_keeps_cursor_in_viewport catalogXYX 2 0 1
      (currentDisplayIdx (buildDisplayItems catalogXYX) 2) (by decide) rfl).2.1⟩

theorem rowEntries_displayItemsAux (cs : List SelectableComponent) :
    ∀ (cur : Option String) (i : Nat),
      rowEntries (displayItemsAux cur i cs) = List.enumFrom i cs := by
  induction cs with
  | nil => intro cur i; rfl
  | cons c rest ih =>
    intro cur i
    simp only [displayItemsAux]
    split_ifs with h
    · simp only [rowEntries, List.filterMap_cons] at *
      simp [ih]
    · simp only [rowEntries, List.filterMap_cons] at *
      simp [ih]

theorem headers_displayItemsAux (cs : List SelectableComponent) :
    ∀ (a : String) (i : Nat),
      (displayItemsAux (some a) i cs).countP isHeader =
        adjacentChanges (a :: cs.map fun c => c.category) := by
  induction cs with
  | nil => intro a i; rfl
  | cons c rest ih =>
    intro a i
    by_cases h : c.category = a
    · subst h
      have hstep : displayItemsAux (some c.category) i (c :: rest) =
          DisplayItem.componentRow c i ::
            displayItemsAux (some c.category) (i + 1) rest := by
        simp [displayItemsAux]
      rw [hstep, List.map_cons]
      simp only [List.countP_cons]
      rw [ih c.category (i + 1)]
      simp [isHeader, adjacentChanges]
    · have hstep : displayItemsAux (some a) i (c :: rest) =
          DisplayItem.category c.category i :: DisplayItem.componentRow c i ::
            displayItemsAux (some c.category) (i + 1) rest := by
        simp [displayItemsAux, h]
      rw [hstep, List.map_cons]
      simp only [List.countP_cons]
      rw [ih c.category (i + 1)]
      simp [isHeader, adjacentChanges, h]
      omega

theorem headers_eq_spec (cs : List SelectableComponent) :
    (buildDisplayItems cs).countP isHeader =
      specHeaderCount (cs.map fun c => c.category) := by
  cases cs with
  | nil => rfl
  | cons c rest =>
    have hstep : buildDisplayItems (c :: rest) =
        DisplayItem.category c.category 0 :: DisplayItem.componentRow c 0 ::
          displayItemsAux (some c.category) 1 rest := by
      simp [buildDisplayItems, displayItemsAux]
    rw [hstep]
    simp only [List.countP_cons]
    rw [headers_displayItemsAux rest c.category 1]
    simp [isHeader, specHeaderCount]
    omega

/-- C6: the display-item sequence carries one component row per catalog
entry, in catalog order and with the right indices; its header count is
one for the first entry plus one per adjacent pair of differing
categories; and over a catalog whose first and third entries share a
category split by a different middle category, that category's header
appears twice. -/
theorem display_items_structure (cs : List SelectableComponent) :
    rowEntries (buildDisplayItems cs) = List.enumFrom 0 cs ∧
    (buildDisplayItems cs).countP isHeader =
      specHeaderCount (cs.map fun c => c.category) ∧
    (buildDisplayItems catalogXYX).countP (isHeaderLabeled "X") = 2 :=
  ⟨rowEntries_displayItemsAux cs none 0, headers_eq_spec cs, by decide⟩

/-- C7 counterexample: with a width budget of 11 for the description, a
9-character description is longer than `11 - 3` characters, yet it is
rendered unchanged — 9 characters, not 11, and with no ellipsis; the
full rendered row shows the untruncated description. -/
theorem description_truncation_counterexample :
    (11 : Int) > 10 ∧
    ((['a', 'b', 'c', 'd', 'e', 'f', 'g', 'h', 'i'] : List Char).length : Int) >
      11 - 3 ∧
    truncateDesc 11 ['a', 'b', 'c', 'd', 'e', 'f', 'g', 'h', 'i'] =
      ['a', 'b', 'c', 'd', 'e', 'f', 'g', 'h', 'i'] ∧
    (truncateDesc 11 ['a', 'b', 'c', 'd', 'e', 'f', 'g', 'h', 'i']).length ≠ 11 ∧
    renderLine 23 ['[', 'X', ']'] ['N'] ['a', 'b', 'c', 'd', 'e', 'f', 'g', 'h', 'i'] =
      name_part ['[', 'X', ']'] ['N'] ++ [' ', '-', ' '] ++
        ['a', 'b', 'c', 'd', 'e', 'f', 'g', 'h', 'i'] := by
  refine ⟨by decide, by decide, by decide, by decide, by decide⟩

/-- C7 amended: truncation triggers only for descriptions longer than
the full budget `B` (not `B - 3`): such descriptions render as exactly
`B` characters ending in the 3-character ellipsis, descriptions of at
most `B` characters render unchanged, and when the available width is at
or below the minimum threshold of 10 the description is omitted and the
row is just the clipped checkbox-and-name part. -/
theorem description_truncation_amended (B : Int) (desc : List Char)
    (hB : 10 < B) :
    ((desc.length : Int) > B →
      ((truncateDesc B desc).length : Int) = B ∧
      ellipsis <:+ truncateDesc B desc) ∧
    ((desc.length : Int) ≤ B → truncateDesc B desc = desc) ∧
    (∀ (max_x : Int) (checkbox name : List Char),
      max_x - ((name_part checkbox name).length : Int) - 5 ≤ 10 →
      renderLine max_x checkbox name desc =
        (name_part checkbox name).take (max_x - 1).toNat) := by
  refine ⟨?_, ?_, ?_⟩
  · intro hd
    constructor
    · simp only [truncateDesc, if_pos hd, List.length_append,
        List.length_take, ellipsis, List.length_cons, List.length_nil]
      omega
    · rw [truncateDesc, if_pos hd]
      exact ⟨desc.take (B - 3).toNat, rfl⟩
  · intro hd
    rw [truncateDesc, if_neg (by omega)]
  · intro max_x checkbox name hw
    simp only [renderLine]
    rw [if_neg (by omega)]

/-- Witness for the amended C7: budget 11 and a 12-character
description give an 11-character rendering that ends in the ellipsis,
and the same description fits untouched under budget 12. -/
theorem description_truncation_amended_witness :
    (((truncateDesc 11
        ['a', 'b', 'c', 'd', 'e', 'f', 'g', 'h', 'i', 'j', 'k', 'l']).length : Int) = 11 ∧
      ellipsis <:+ truncateDesc 11
        ['a', 'b', 'c', 'd', 'e', 'f', 'g', 'h', 'i', 'j', 'k', 'l']) ∧
    truncateDesc 12 ['a', 'b', 'c', 'd', 'e', 'f', 'g', 'h', 'i', 'j', 'k', 'l'] =
      ['a', 'b', 'c', 'd', 'e', 'f', 'g', 'h', 'i', 'j', 'k', 'l'] :=
  ⟨(description_truncation_amended 11
      ['a', 'b', 'c', 'd', 'e', 'f', 'g', 'h', 'i', 'j', 'k', 'l']
      (by decide)).1 (by decide),
   (description_truncation_amended 12
      ['a', 'b', 'c', 'd', 'e', 'f', 'g', 'h', 'i', 'j', 'k', 'l']
      (by decide)).2.1 (by decide)⟩
